import Mathlib

/-!
Verification of the tic-tac-toe backend's game core and move-submission
protocol, shallowly embedded from the repository sources
(`src/api/core.py`, `src/api/main.py`, `src/api/database.py`).

Cells as stored and deserialized can be JSON `null` (Python `None`),
the legacy empty string `""`, or the marks `"X"`/`"O"`; the four-valued
`Cell` type mirrors that runtime domain.
-/

namespace TicTacToe

/-- Runtime domain of a board cell: `null`, legacy `""`, or a mark. -/
inductive Cell where
  | empty
  | emptyStr
  | X
  | O
deriving DecidableEq, Repr

/-- A 3×3 board, row-indexed then column-indexed. -/
abbrev Board := Fin 3 → Fin 3 → Cell

/-- Embeds `core.empty_board`: `[[None]*3]*3` — all cells `None`. -/
def empty_board : Board := fun _ _ => Cell.empty

/-- The emptiness test the source repeats: `cell is None or cell == ''`. -/
def isEmptyCell : Cell → Bool
  | Cell.empty => true
  | Cell.emptyStr => true
  | _ => false

/-- Python truthiness of a cell value: `None` and `""` are falsy. -/
def cellTruthy : Cell → Bool
  | Cell.X => true
  | Cell.O => true
  | _ => false

/-- Embeds `core.is_valid_move`:
`0 <= x < 3 and 0 <= y < 3 and (board[x][y] is None or board[x][y] == '')`.
The conjunction short-circuits, so the cell is read only in range. -/
def is_valid_move (bd : Board) (x y : Int) : Bool :=
  if h : 0 ≤ x ∧ x < 3 ∧ 0 ≤ y ∧ y < 3 then
    isEmptyCell (bd ⟨x.toNat, by omega⟩ ⟨y.toNat, by omega⟩)
  else false

/-- Embeds `core.make_move`: copy the rows, then set cell
`(x, y)` to `symbol`.  Coordinates are used in range by every caller
(the protocol validates first), where row copy plus single assignment
denotes exactly this functional update. -/
def make_move (bd : Board) (x y : Int) (s : Cell) : Board :=
  fun i j => if (i.val : Int) = x ∧ (j.val : Int) = y then s else bd i j

/-- Coordinate triple of one of the 8 candidate lines. -/
abbrev LineT := (Fin 3 × Fin 3) × (Fin 3 × Fin 3) × (Fin 3 × Fin 3)

/-- The 8 lines in the exact order `core.check_win` builds its `lines`
list: for i in 0..2 row i then column i, then the two diagonals. -/
def lineCoords : List LineT :=
  [ ((0, 0), (0, 1), (0, 2)),
    ((0, 0), (1, 0), (2, 0)),
    ((1, 0), (1, 1), (1, 2)),
    ((0, 1), (1, 1), (2, 1)),
    ((2, 0), (2, 1), (2, 2)),
    ((0, 2), (1, 2), (2, 2)),
    ((0, 0), (1, 1), (2, 2)),
    ((0, 2), (1, 1), (2, 0)) ]

/-- One iteration of `check_win`'s loop:
`if line[0] and line[0] == line[1] == line[2]: return line[0]`. -/
def lineWinner (a b c : Cell) : Option Cell :=
  if cellTruthy a = true ∧ a = b ∧ b = c then some a else none

/-- Embeds `core.check_win`: first fully-matched truthy line in scan
order, else `None`. -/
def check_win (bd : Board) : Option Cell :=
  lineCoords.findSome? fun l =>
    lineWinner (bd l.1.1 l.1.2) (bd l.2.1.1 l.2.1.2) (bd l.2.2.1 l.2.2.2)

/-- Whether one row contains an empty cell (the `any(...)` in
`core.check_draw`'s row loop). -/
def rowHasEmpty (r : Fin 3 → Cell) : Bool :=
  isEmptyCell (r 0) || isEmptyCell (r 1) || isEmptyCell (r 2)

/-- Embeds `core.check_draw`: `False` as soon as a row holds an empty
cell, else `check_win(board) is None`. -/
def check_draw (bd : Board) : Bool :=
  if rowHasEmpty (bd 0) || rowHasEmpty (bd 1) || rowHasEmpty (bd 2) then false
  else (check_win bd).isNone

/-- Embeds `core.next_turn`: returns O when the current turn equals X,
else X. -/
def next_turn (c : Cell) : Cell :=
  if c = Cell.X then Cell.O else Cell.X

/-- All three cells of line `l` hold the mark `c`. -/
def lineAllB (bd : Board) (l : LineT) (c : Cell) : Bool :=
  decide (bd l.1.1 l.1.2 = c) && decide (bd l.2.1.1 l.2.1.2 = c) &&
    decide (bd l.2.2.1 l.2.2.2 = c)

/-- The board contains a completed winning line for mark `c`. -/
def hasWinLine (bd : Board) (c : Cell) : Bool :=
  lineCoords.any fun l => lineAllB bd l c

/-- Python list indexing on a length-3 sequence: `0..2` direct, `-3..-1`
wraps from the end, anything else raises `IndexError`. -/
def pyIndex3 {α : Type} (f : Fin 3 → α) (i : Int) : Except String α :=
  if h : 0 ≤ i ∧ i < 3 then Except.ok (f ⟨i.toNat, by omega⟩)
  else if h2 : -3 ≤ i ∧ i < 0 then Except.ok (f ⟨(i + 3).toNat, by omega⟩)
  else Except.error ("IndexError: list index out of range")

/-- Embeds `core.is_valid_move` with Python evaluation order made explicit:
the two range conjuncts are tested first and short-circuit, so
`board[x][y]` is evaluated (and could raise) only when both are in
range. -/
def is_valid_move_py (bd : Board) (x y : Int) : Except String Bool :=
  if 0 ≤ x ∧ x < 3 then
    if 0 ≤ y ∧ y < 3 then
      match pyIndex3 (fun i => bd i) x with
      | Except.error e => Except.error e
      | Except.ok row =>
        match pyIndex3 row y with
        | Except.error e => Except.error e
        | Except.ok c => Except.ok (isEmptyCell c)
    else Except.ok false
  else Except.ok false

/-- Stored `winner` column values: the X mark, the O mark, or Draw. -/
inductive GWin where
  | X
  | O
  | Draw
deriving DecidableEq, Repr

/-- The winner string reused from `check_win`'s return value
(`winner_str = winner or ...` keeps the mark itself). -/
def winnerOfCell (c : Cell) : GWin :=
  if c = Cell.X then GWin.X else GWin.O

/-- One row of the `game` table (columns used by the move protocol). -/
structure Game where
  player_x_id : Nat
  player_o_id : Option Nat
  board : Board
  next_turn : Option Cell
  winner : Option GWin
  created_at : Nat
  finished_at : Option Nat
deriving DecidableEq

/-- A row of the `move` table as inserted by `database.add_move`. -/
structure MoveRec where
  id : Nat
  game_id : Nat
  player_id : Nat
  x : Int
  y : Int
  symbol : Cell
  timestamp : Nat
deriving DecidableEq, Repr

/-- The persistent store: the `game` table keyed by id, the append-only
`move` table, and counters of executed game-row UPDATE statements and
move-row INSERT statements (one per call of the corresponding
`database` primitive). -/
structure Store where
  games : Nat → Option Game
  moves : List MoveRec
  gameUpdates : Nat
  moveInserts : Nat

/-- Embeds `database.create_game`: INSERT with next_turn set to X, board
`[["", "", ""], ["", "", ""], ["", "", ""]]` (the legacy empty-string
cells, verbatim from the SQL literal), `created_at = NOW()`, and
`winner`/`finished_at` left NULL.  `gid` stands for the id the database
assigns to the fresh row. -/
def create_game (st : Store) (gid pxid : Nat) (poid : Option Nat) (now : Nat) :
    Store × Game :=
  let g : Game :=
    { player_x_id := pxid
      player_o_id := poid
      board := fun _ _ => Cell.emptyStr
      next_turn := some Cell.X
      winner := none
      created_at := now
      finished_at := none }
  ({ st with games := fun k => if k = gid then some g else st.games k }, g)

/-- Embeds `main._deserialize_board`: `json.loads` when the column is a string,
identity otherwise — cell values pass through verbatim (`null` stays
`None`, the legacy `""` stays `""`; no normalization happens on load). -/
def deserialize_board (bd : Board) : Board := bd

/-- Embeds `database.update_game_board`: `UPDATE game SET board=$1,
next_turn=$2, winner=$3 WHERE id=$4` — conditioned on the id only; no
`next_turn`/`winner` guard, no affected-row count is inspected. -/
def update_game_board (st : Store) (gid : Nat) (bd : Board)
    (nt : Option Cell) (w : Option GWin) : Store :=
  { st with
    games := fun k =>
      if k = gid then
        (st.games k).map fun g => { g with board := bd, next_turn := nt, winner := w }
      else st.games k
    gameUpdates := st.gameUpdates + 1 }

/-- Embeds `database.finish_game`: `UPDATE game SET winner=$1, finished_at=NOW()
WHERE id=$2`. -/
def finish_game (st : Store) (gid : Nat) (w : Option GWin) (now : Nat) : Store :=
  { st with
    games := fun k =>
      if k = gid then
        (st.games k).map fun g => { g with winner := w, finished_at := some now }
      else st.games k
    gameUpdates := st.gameUpdates + 1 }

/-- Embeds `database.add_move`: INSERT the move row and return it. -/
def add_move (st : Store) (gid pid : Nat) (x y : Int) (sym : Cell) (now : Nat) :
    Store × MoveRec :=
  let m : MoveRec :=
    { id := st.moves.length, game_id := gid, player_id := pid
      x := x, y := y, symbol := sym, timestamp := now }
  ({ st with moves := st.moves ++ [m], moveInserts := st.moveInserts + 1 }, m)

/-- Error responses `api_submit_move` can raise, in the order the checks
appear in the source. -/
inductive MoveError where
  | NotFound
  | NotAParticipant
  | GameFinished
  | NotYourTurn
  | InvalidMove
deriving DecidableEq, Repr

/-- The symbol the endpoint assigns the mover:
`'X' if move.player_id == g["player_x_id"] else 'O'`. -/
def playerSymbol (g : Game) (pid : Nat) : Cell :=
  if pid = g.player_x_id then Cell.X else Cell.O

/-- Write phase of `api_submit_move` (everything after the checks pass):
apply the move, detect win/draw, write the game row, stamp completion,
insert the move row.  `oldTurn` is `g["next_turn"]`, which the turn
check has just forced to equal the mover's symbol. -/
def submit_effects (st : Store) (gid pid : Nat) (x y : Int) (sym oldTurn : Cell)
    (now : Nat) (board : Board) : Store × MoveRec :=
  let board' := make_move board x y sym
  let winner := check_win board'
  let draw := check_draw board'
  let finished := winner.isSome || draw
  let next_t : Option Cell := if finished then none else some (next_turn oldTurn)
  let winner_str : Option GWin :=
    match winner with
    | some c => some (winnerOfCell c)
    | none => if draw then some GWin.Draw else none
  let st1 := update_game_board st gid board' next_t winner_str
  let st2 := if finished && winner_str.isSome then finish_game st1 gid winner_str now
             else st1
  add_move st2 gid pid x y sym now

/-- Embeds `main.api_submit_move` (POST `/games/{game_id}/moves`): the five
checks in source order — game exists, mover is a participant, game not
already won, mover's symbol is the stored `next_turn`, move valid on
the deserialized board — each rejecting with the store untouched, then
the write phase. -/
def api_submit_move (st : Store) (gid pid : Nat) (x y : Int) (now : Nat) :
    Except MoveError MoveRec × Store :=
  match st.games gid with
  | none => (Except.error MoveError.NotFound, st)
  | some g =>
    if pid = g.player_x_id ∨ some pid = g.player_o_id then
      let board := deserialize_board g.board
      let sym := playerSymbol g pid
      if g.winner.isSome then (Except.error MoveError.GameFinished, st)
      else if g.next_turn ≠ some sym then (Except.error MoveError.NotYourTurn, st)
      else if is_valid_move board x y then
        let p := submit_effects st gid pid x y sym sym now board
        (Except.ok p.2, p.1)
      else (Except.error MoveError.InvalidMove, st)
    else (Except.error MoveError.NotAParticipant, st)

/-- Boards reachable exactly as claim C9 words it: from the empty board
by `make_move` calls with strictly alternating symbols starting at X,
each applied only where `is_valid_move` returned true. -/
inductive AltReach : Board → Cell → Prop where
  | init : AltReach empty_board Cell.X
  | step (bd : Board) (turn : Cell) (x y : Int) :
      AltReach bd turn → is_valid_move bd x y = true →
      AltReach (make_move bd x y turn) (next_turn turn)

/-- Boards reachable under the protocol's own discipline: as `AltReach`
but a move is applied only while the board has no winner yet — the
`GameFinished` precondition of `api_submit_move` enforces exactly this
stop. -/
inductive LegalReach : Board → Cell → Prop where
  | init : LegalReach empty_board Cell.X
  | step (bd : Board) (turn : Cell) (x y : Int) :
      LegalReach bd turn → check_win bd = none → is_valid_move bd x y = true →
      LegalReach (make_move bd x y turn) (next_turn turn)

/-- The board of claim C9's counterexample run: X fills row 0 while O
fills row 1, play continuing past X's win. -/
def twoWinnerBoard : Board :=
  make_move (make_move (make_move (make_move (make_move (make_move
    empty_board 0 0 Cell.X) 1 0 Cell.O) 0 1 Cell.X) 1 1 Cell.O)
    0 2 Cell.X) 1 2 Cell.O

/-- The empty store used by concrete scenarios. -/
def emptyStore : Store := ⟨fun _ => none, [], 0, 0⟩

/-- A concluded game (X already won) between players 1 and 2. -/
def g0 : Game := ⟨1, some 2, fun _ _ => Cell.emptyStr, none, some GWin.X, 0, some 5⟩

/-- Store holding only the concluded game `g0` under id 1. -/
def st0 : Store := ⟨fun k => if k = 1 then some g0 else none, [], 0, 0⟩

/-- A fresh in-progress game between players 1 and 2, X to move. -/
def g1 : Game := ⟨1, some 2, fun _ _ => Cell.emptyStr, some Cell.X, none, 0, none⟩

/-- Store holding only the fresh game `g1` under id 1. -/
def st1 : Store := ⟨fun k => if k = 1 then some g1 else none, [], 0, 0⟩

/-- The move row created by player 1 playing (0,0) in `st1` at time 5. -/
def mv1 : MoveRec := ⟨0, 1, 1, 0, 0, Cell.X, 5⟩

/-- The game row after that move: X at (0,0), O to move. -/
def gAfter1 : Game :=
  ⟨1, some 2, make_move (fun _ _ => Cell.emptyStr) 0 0 Cell.X, some Cell.O, none, 0, none⟩

/-- Board two plies from a win for X: X at (0,0),(0,1); O at (1,0),(1,1). -/
def winBoardPre : Board :=
  make_move (make_move (make_move (make_move empty_board 0 0 Cell.X)
    1 0 Cell.O) 0 1 Cell.X) 1 1 Cell.O

/-- In-progress game on `winBoardPre`, X to move (X wins by playing (0,2)). -/
def gWin : Game := ⟨1, some 2, winBoardPre, some Cell.X, none, 0, none⟩

/-- Store holding only `gWin` under id 1. -/
def stWin : Store := ⟨fun k => if k = 1 then some gWin else none, [], 0, 0⟩

/-- A game whose state moved on since it was read: now concluded (X won)
and `next_turn` cleared to O — the situation a conditional update keyed
on the validated turn would have to detect. -/
def gStale : Game := ⟨1, some 2, fun _ _ => Cell.empty, some Cell.O, some GWin.X, 0, some 3⟩

/-- Store holding only `gStale` under id 1. -/
def stStale : Store := ⟨fun k => if k = 1 then some gStale else none, [], 0, 0⟩

/-- C6: the move-validity check is total and matches its contract. -/
theorem is_valid_move_total_correct (bd : Board) (x y : Int) :
    is_valid_move_py bd x y = Except.ok (is_valid_move bd x y) ∧
    (is_valid_move bd x y = true ↔
      0 ≤ x ∧ x < 3 ∧ 0 ≤ y ∧ y < 3 ∧
        ∀ i j : Fin 3, (i.val : Int) = x → (j.val : Int) = y →
          isEmptyCell (bd i j) = true) := by
  constructor
  · by_cases hx : 0 ≤ x ∧ x < 3
    · by_cases hy : 0 ≤ y ∧ y < 3
      · have hall : 0 ≤ x ∧ x < 3 ∧ 0 ≤ y ∧ y < 3 := ⟨hx.1, hx.2, hy.1, hy.2⟩
        simp only [is_valid_move_py, if_pos hx, if_pos hy, pyIndex3, dif_pos hx,
          dif_pos hy, is_valid_move, dif_pos hall]
      · have hnall : ¬(0 ≤ x ∧ x < 3 ∧ 0 ≤ y ∧ y < 3) := by tauto
        simp only [is_valid_move_py, if_pos hx, if_neg hy, is_valid_move, dif_neg hnall]
    · have hnall : ¬(0 ≤ x ∧ x < 3 ∧ 0 ≤ y ∧ y < 3) := by tauto
      simp only [is_valid_move_py, if_neg hx, is_valid_move, dif_neg hnall]
  · constructor
    · intro h
      unfold is_valid_move at h
      split at h
      case isTrue hc =>
        refine ⟨hc.1, hc.2.1, hc.2.2.1, hc.2.2.2, ?_⟩
        intro i j hi hj
        have hi' : i = ⟨x.toNat, by omega⟩ := by
          apply Fin.ext
          show i.val = x.toNat
          omega
        have hj' : j = ⟨y.toNat, by omega⟩ := by
          apply Fin.ext
          show j.val = y.toNat
          omega
        rw [hi', hj']
        exact h
      case isFalse => exact absurd h (by simp)
    · rintro ⟨h1, h2, h3, h4, h5⟩
      unfold is_valid_move
      rw [dif_pos ⟨h1, h2, h3, h4⟩]
      refine h5 ⟨x.toNat, by omega⟩ ⟨y.toNat, by omega⟩ ?_ ?_
      · show ((x.toNat : Nat) : Int) = x
        omega
      · show ((y.toNat : Nat) : Int) = y
        omega

/-- C7: `check_draw` is true exactly when the board is full (no cell
empty under either sentinel) and `check_win` finds no winner. -/
theorem check_draw_iff (bd : Board) :
    check_draw bd = true ↔
      (∀ i j : Fin 3, isEmptyCell (bd i j) = false) ∧ check_win bd = none := by
  unfold check_draw
  constructor
  · intro h
    split at h
    case isTrue => exact absurd h (by simp)
    case isFalse hcond =>
      simp only [rowHasEmpty, Bool.or_eq_true, not_or, Bool.not_eq_true] at hcond
      refine ⟨?_, Option.isNone_iff_eq_none.mp h⟩
      intro i j
      fin_cases i <;> fin_cases j <;> simp_all
  · rintro ⟨hfull, hwin⟩
    have hcond : ¬(rowHasEmpty (bd 0) || rowHasEmpty (bd 1) || rowHasEmpty (bd 2)) = true := by
      simp [rowHasEmpty, hfull]
    rw [if_neg hcond, hwin]
    rfl

/-- C10: `make_move` writes the symbol at the addressed cell and leaves
every other cell as it was; it needs no emptiness precondition, so an
occupied cell is silently overwritten. -/
theorem make_move_spec (bd : Board) (x y : Int) (s : Cell)
    (hx : 0 ≤ x ∧ x < 3) (hy : 0 ≤ y ∧ y < 3) :
    make_move bd x y s ⟨x.toNat, by omega⟩ ⟨y.toNat, by omega⟩ = s ∧
    ∀ i j : Fin 3, ¬((i.val : Int) = x ∧ (j.val : Int) = y) →
      make_move bd x y s i j = bd i j := by
  constructor
  · unfold make_move
    rw [if_pos]
    constructor <;> simp <;> omega
  · intro i j hne
    unfold make_move
    rw [if_neg hne]

/-- Witness for C10: overwriting an occupied centre cell succeeds and a
distinct cell keeps its prior mark. -/
theorem make_move_spec_w :
    make_move (fun _ _ => Cell.O) 1 1 Cell.X ⟨1, by omega⟩ ⟨1, by omega⟩ = Cell.X ∧
    make_move (fun _ _ => Cell.O) 1 1 Cell.X ⟨0, by omega⟩ ⟨2, by omega⟩ = Cell.O := by
  have h := make_move_spec (fun _ _ => Cell.O) 1 1 Cell.X (by omega) (by omega)
  exact ⟨h.1, h.2 ⟨0, by omega⟩ ⟨2, by omega⟩ (by simp)⟩

/-- A cell written by `make_move` with symbol `s` cannot explain a cell
holding a different value `t`; it must already have been there. -/
theorem make_move_eq_of_ne {bd : Board} {x y : Int} {s t : Cell} {i j : Fin 3}
    (hne : t ≠ s) (h : make_move bd x y s i j = t) : bd i j = t := by
  unfold make_move at h
  split at h
  · exact absurd h.symm hne
  · exact h

/-- A line completed for `t` after a move by `s ≠ t` was already
completed before the move. -/
theorem lineAllB_make_move {bd : Board} {x y : Int} {s t : Cell} {l : LineT}
    (hne : t ≠ s) (h : lineAllB (make_move bd x y s) l t = true) :
    lineAllB bd l t = true := by
  simp only [lineAllB, Bool.and_eq_true, decide_eq_true_eq] at h ⊢
  exact ⟨⟨make_move_eq_of_ne hne h.1.1, make_move_eq_of_ne hne h.1.2⟩,
    make_move_eq_of_ne hne h.2⟩

/-- `hasWinLine` for the non-moving symbol is preserved backwards
through a move. -/
theorem hasWinLine_make_move {bd : Board} {x y : Int} {s t : Cell}
    (hne : t ≠ s) (h : hasWinLine (make_move bd x y s) t = true) :
    hasWinLine bd t = true := by
  simp only [hasWinLine, List.any_eq_true] at h ⊢
  obtain ⟨l, hl, hall⟩ := h
  exact ⟨l, hl, lineAllB_make_move hne hall⟩

/-- A completed truthy line forces `check_win` to report a winner. -/
theorem check_win_ne_none_of_hasWinLine {bd : Board} {t : Cell}
    (ht : cellTruthy t = true) (h : hasWinLine bd t = true) :
    check_win bd ≠ none := by
  intro hnone
  rw [check_win, List.findSome?_eq_none_iff] at hnone
  simp only [hasWinLine, List.any_eq_true] at h
  obtain ⟨l, hl, hall⟩ := h
  have hw := hnone l hl
  simp only [lineAllB, Bool.and_eq_true, decide_eq_true_eq] at hall
  rw [lineWinner, hall.1.1, hall.1.2, hall.2, if_pos ⟨ht, rfl, rfl⟩] at hw
  exact Option.some_ne_none t hw

/-- A turn value reached through `LegalReach` is one of the two marks. -/
theorem legalReach_turn {bd : Board} {t : Cell} (h : LegalReach bd t) :
    t = Cell.X ∨ t = Cell.O := by
  cases h with
  | init => exact Or.inl rfl
  | step bd0 turn x y hr hw hv =>
    unfold next_turn
    split
    · exact Or.inr rfl
    · exact Or.inl rfl

/-- C9 (amended): a board reached by alternating valid moves that stop
once a winner exists — the discipline `api_submit_move` enforces via
its `GameFinished` check — never holds completed lines for both marks. -/
theorem legal_boards_single_winner (bd : Board) (t : Cell) (h : LegalReach bd t) :
    ¬(hasWinLine bd Cell.X = true ∧ hasWinLine bd Cell.O = true) := by
  rintro ⟨hX, hO⟩
  cases h with
  | init => exact absurd hX (by decide)
  | step bd0 turn x y hr hw hv =>
    rcases legalReach_turn hr with hT | hT
    · subst hT
      exact check_win_ne_none_of_hasWinLine (by decide)
        (hasWinLine_make_move (by decide) hO) hw
    · subst hT
      exact check_win_ne_none_of_hasWinLine (by decide)
        (hasWinLine_make_move (by decide) hX) hw

/-- Witness for C9: the board after X's legal opening move carries no
pair of completed lines. -/
theorem legal_boards_single_winner_w :
    ¬(hasWinLine (make_move empty_board 0 0 Cell.X) Cell.X = true ∧
      hasWinLine (make_move empty_board 0 0 Cell.X) Cell.O = true) :=
  legal_boards_single_winner (make_move empty_board 0 0 Cell.X) (next_turn Cell.X)
    (LegalReach.step empty_board Cell.X 0 0 LegalReach.init (by decide) (by decide))

/-- Counterexample to C9 as stated: alternating valid moves alone (no
stop at a win) reach a board whose top row is all X and middle row all
O — completed winning lines for both symbols simultaneously. -/
theorem alt_boards_two_winners_cx :
    AltReach twoWinnerBoard Cell.X ∧
    hasWinLine twoWinnerBoard Cell.X = true ∧
    hasWinLine twoWinnerBoard Cell.O = true := by
  refine ⟨?_, by decide, by decide⟩
  have h1 := AltReach.step empty_board Cell.X 0 0 AltReach.init (by decide)
  have h2 := AltReach.step _ _ 1 0 h1 (by decide)
  have h3 := AltReach.step _ _ 0 1 h2 (by decide)
  have h4 := AltReach.step _ _ 1 1 h3 (by decide)
  have h5 := AltReach.step _ _ 0 2 h4 (by decide)
  have h6 := AltReach.step _ _ 1 2 h5 (by decide)
  exact h6

/-- C1 (amended): the checks of `api_submit_move` run in source order —
game exists, mover is a participant, game not finished, mover's turn,
move valid — with the first failure winning and the store untouched. -/
theorem submit_move_check_order (st : Store) (gid pid : Nat) (x y : Int) (now : Nat) :
    (st.games gid = none →
      api_submit_move st gid pid x y now = (Except.error MoveError.NotFound, st)) ∧
    (∀ g, st.games gid = some g →
      ¬(pid = g.player_x_id ∨ some pid = g.player_o_id) →
      api_submit_move st gid pid x y now = (Except.error MoveError.NotAParticipant, st)) ∧
    (∀ g, st.games gid = some g →
      (pid = g.player_x_id ∨ some pid = g.player_o_id) →
      g.winner.isSome = true →
      api_submit_move st gid pid x y now = (Except.error MoveError.GameFinished, st)) ∧
    (∀ g, st.games gid = some g →
      (pid = g.player_x_id ∨ some pid = g.player_o_id) →
      g.winner = none → g.next_turn ≠ some (playerSymbol g pid) →
      api_submit_move st gid pid x y now = (Except.error MoveError.NotYourTurn, st)) ∧
    (∀ g, st.games gid = some g →
      (pid = g.player_x_id ∨ some pid = g.player_o_id) →
      g.winner = none → g.next_turn = some (playerSymbol g pid) →
      is_valid_move (deserialize_board g.board) x y = false →
      api_submit_move st gid pid x y now = (Except.error MoveError.InvalidMove, st)) := by
  refine ⟨?_, ?_, ?_, ?_, ?_⟩
  · intro hg
    unfold api_submit_move
    simp only [hg]
  · intro g hg hp
    unfold api_submit_move
    simp only [hg]
    rw [if_neg hp]
  · intro g hg hp hw
    unfold api_submit_move
    simp only [hg]
    rw [if_pos hp, if_pos hw]
  · intro g hg hp hw ht
    unfold api_submit_move
    simp only [hg]
    rw [if_pos hp, if_neg (by rw [hw]; simp), if_pos ht]
  · intro g hg hp hw ht hv
    unfold api_submit_move
    simp only [hg]
    rw [if_pos hp, if_neg (by rw [hw]; simp), if_neg (by rw [ht]; simp),
      if_neg (by rw [hv]; simp)]

/-- Witness for C1: a missing game id is rejected with `NotFound`. -/
theorem submit_move_check_order_w :
    api_submit_move emptyStore 1 1 0 0 0 = (Except.error MoveError.NotFound, emptyStore) :=
  (submit_move_check_order emptyStore 1 1 0 0 0).1 rfl

/-- Counterexample to C1 as stated: on a concluded game, a player id
that is not a participant is answered `NotAParticipant` — the
participant check runs before the finished check, not after. -/
theorem submit_move_check_order_cx :
    st0.games 1 = some g0 ∧ g0.winner.isSome = true ∧
    ¬(99 = g0.player_x_id ∨ some 99 = g0.player_o_id) ∧
    api_submit_move st0 1 99 0 0 7 = (Except.error MoveError.NotAParticipant, st0) ∧
    MoveError.NotAParticipant ≠ MoveError.GameFinished := by
  refine ⟨rfl, rfl, by decide, rfl, by decide⟩

/-- Every rejection of `api_submit_move` leaves the store exactly as it
was: the checks all precede the first write. -/
theorem submit_move_rejected_no_effects (st : Store) (gid pid : Nat) (x y : Int)
    (now : Nat) (e : MoveError)
    (h : (api_submit_move st gid pid x y now).1 = Except.error e) :
    (api_submit_move st gid pid x y now).2 = st := by
  have hshape : (api_submit_move st gid pid x y now).2 = st ∨
      ∃ m, (api_submit_move st gid pid x y now).1 = Except.ok m := by
    unfold api_submit_move
    cases hg : st.games gid with
    | none => exact Or.inl rfl
    | some g =>
      simp only []
      split_ifs with h1 h2 h3 h4
      · exact Or.inl rfl
      · exact Or.inl rfl
      · exact Or.inr ⟨_, rfl⟩
      · exact Or.inl rfl
      · exact Or.inl rfl
  rcases hshape with hs | ⟨m, hm⟩
  · exact hs
  · rw [hm] at h
    exact absurd h (by simp)

/-- Witness for C4: the rejected non-participant call on the concluded
game leaves the store untouched. -/
theorem submit_move_rejected_no_effects_w :
    (api_submit_move st0 1 99 0 0 7).2 = st0 :=
  submit_move_rejected_no_effects st0 1 99 0 0 7 MoveError.NotAParticipant rfl

/-- C2 evaluation: `update_game_board` is keyed on the id only.  Against
a game whose state changed after the read (now concluded, turn gone),
the write validated for X still lands — it even un-concludes the row —
and two writes computed from the same stale read both land, the second
silently erasing the first (the mark at (0,0) is gone from the final
board); no zero-row conflict signal exists anywhere on the path. -/
theorem update_game_board_unconditional_cx :
    (update_game_board stStale 1 (make_move empty_board 0 0 Cell.X)
        (some Cell.O) none).games 1 =
      some { gStale with
              board := make_move empty_board 0 0 Cell.X
              next_turn := some Cell.O
              winner := none } ∧
    (update_game_board stStale 1 (make_move empty_board 0 0 Cell.X)
        (some Cell.O) none).gameUpdates = stStale.gameUpdates + 1 ∧
    (update_game_board
        (update_game_board st1 1 (make_move empty_board 0 0 Cell.X) (some Cell.O) none)
        1 (make_move empty_board 0 1 Cell.X) (some Cell.O) none).games 1 =
      some { g1 with
              board := make_move empty_board 0 1 Cell.X
              next_turn := some Cell.O
              winner := none } ∧
    (update_game_board
        (update_game_board st1 1 (make_move empty_board 0 0 Cell.X) (some Cell.O) none)
        1 (make_move empty_board 0 1 Cell.X) (some Cell.O) none).gameUpdates = 2 ∧
    make_move empty_board 0 1 Cell.X ⟨0, by omega⟩ ⟨0, by omega⟩ = Cell.empty := by
  refine ⟨rfl, rfl, rfl, rfl, by decide⟩

/-- Inversion of a successful submission: the five checks passed and
the call reduced to the write phase `submit_effects`. -/
theorem api_submit_move_ok_inv {st : Store} {gid pid : Nat} {x y : Int} {now : Nat}
    {m : MoveRec} (h : (api_submit_move st gid pid x y now).1 = Except.ok m) :
    ∃ g, st.games gid = some g ∧
      (pid = g.player_x_id ∨ some pid = g.player_o_id) ∧
      g.winner = none ∧
      g.next_turn = some (playerSymbol g pid) ∧
      is_valid_move (deserialize_board g.board) x y = true ∧
      api_submit_move st gid pid x y now =
        (Except.ok (submit_effects st gid pid x y (playerSymbol g pid) (playerSymbol g pid)
            now (deserialize_board g.board)).2,
          (submit_effects st gid pid x y (playerSymbol g pid) (playerSymbol g pid)
            now (deserialize_board g.board)).1) := by
  unfold api_submit_move at h ⊢
  cases hg : st.games gid with
  | none => simp [hg] at h
  | some g =>
    simp only [hg] at h ⊢
    by_cases h1 : pid = g.player_x_id ∨ some pid = g.player_o_id
    · rw [if_pos h1] at h ⊢
      by_cases h2 : g.winner.isSome = true
      · rw [if_pos h2] at h
        exact absurd h (by simp)
      · rw [if_neg h2] at h ⊢
        by_cases h3 : g.next_turn ≠ some (playerSymbol g pid)
        · rw [if_pos h3] at h
          exact absurd h (by simp)
        · rw [if_neg h3] at h ⊢
          by_cases h4 : is_valid_move (deserialize_board g.board) x y = true
          · rw [if_pos h4] at h ⊢
            exact ⟨g, rfl, h1, Option.not_isSome_iff_eq_none.mp h2,
              not_ne_iff.mp h3, h4, rfl⟩
          · rw [if_neg h4] at h
            exact absurd h (by simp)
    · rw [if_neg h1] at h
      exact absurd h (by simp)

/-- Update counters and move list across the write phase: one move
insertion always; two game-row updates when the new board has a winner
or is a draw (the `finish_game` stamp), one otherwise. -/
theorem submit_effects_counts (st : Store) (gid pid : Nat) (x y : Int)
    (sym oldTurn : Cell) (now : Nat) (board : Board) :
    (submit_effects st gid pid x y sym oldTurn now board).1.moveInserts
      = st.moveInserts + 1 ∧
    (submit_effects st gid pid x y sym oldTurn now board).1.moves
      = st.moves ++ [(submit_effects st gid pid x y sym oldTurn now board).2] ∧
    (submit_effects st gid pid x y sym oldTurn now board).1.gameUpdates
      = st.gameUpdates +
        (if (check_win (make_move board x y sym)).isSome
            || check_draw (make_move board x y sym) then 2 else 1) := by
  unfold submit_effects
  cases hw : check_win (make_move board x y sym) with
  | some c =>
    simp [hw, update_game_board, finish_game, add_move]
  | none =>
    cases hd : check_draw (make_move board x y sym) with
    | true => simp [hw, hd, update_game_board, finish_game, add_move]
    | false => simp [hw, hd, update_game_board, finish_game, add_move]

/-- Write phase, game row after a winning move: board, cleared turn,
winner and `finished_at` all land on the row. -/
theorem submit_effects_games_win (st : Store) (gid pid : Nat) (x y : Int)
    (sym oldTurn : Cell) (now : Nat) (board : Board) (g : Game) (c : Cell)
    (hg : st.games gid = some g)
    (hw : check_win (make_move board x y sym) = some c) :
    (submit_effects st gid pid x y sym oldTurn now board).1.games gid =
      some { g with
              board := make_move board x y sym
              next_turn := none
              winner := some (winnerOfCell c)
              finished_at := some now } := by
  unfold submit_effects
  simp [hw, update_game_board, finish_game, add_move, hg]

/-- Write phase, game row after a drawing move. -/
theorem submit_effects_games_draw (st : Store) (gid pid : Nat) (x y : Int)
    (sym oldTurn : Cell) (now : Nat) (board : Board) (g : Game)
    (hg : st.games gid = some g)
    (hw : check_win (make_move board x y sym) = none)
    (hd : check_draw (make_move board x y sym) = true) :
    (submit_effects st gid pid x y sym oldTurn now board).1.games gid =
      some { g with
              board := make_move board x y sym
              next_turn := none
              winner := some GWin.Draw
              finished_at := some now } := by
  unfold submit_effects
  simp [hw, hd, update_game_board, finish_game, add_move, hg]

/-- Write phase, game row after a move that keeps the game going: the
turn toggles, winner stays clear, `finished_at` untouched. -/
theorem submit_effects_games_cont (st : Store) (gid pid : Nat) (x y : Int)
    (sym oldTurn : Cell) (now : Nat) (board : Board) (g : Game)
    (hg : st.games gid = some g)
    (hw : check_win (make_move board x y sym) = none)
    (hd : check_draw (make_move board x y sym) = false) :
    (submit_effects st gid pid x y sym oldTurn now board).1.games gid =
      some { g with
              board := make_move board x y sym
              next_turn := some (next_turn oldTurn)
              winner := none } := by
  unfold submit_effects
  simp [hw, hd, update_game_board, finish_game, add_move, hg]

/-- C3 (amended): a successful submission inserts exactly one move row,
appending it to the history, and updates the game row exactly once —
except that a concluding move (win or draw on the new board) updates
the game row twice, `update_game_board` then the `finish_game` stamp. -/
theorem submit_move_success_effects (st : Store) (gid pid : Nat) (x y : Int)
    (now : Nat) (g : Game) (m : MoveRec)
    (hg : st.games gid = some g)
    (h : (api_submit_move st gid pid x y now).1 = Except.ok m) :
    (api_submit_move st gid pid x y now).2.moveInserts = st.moveInserts + 1 ∧
    (api_submit_move st gid pid x y now).2.moves = st.moves ++ [m] ∧
    (api_submit_move st gid pid x y now).2.gameUpdates =
      st.gameUpdates +
        (if (check_win (make_move (deserialize_board g.board) x y (playerSymbol g pid))).isSome
            || check_draw (make_move (deserialize_board g.board) x y (playerSymbol g pid))
         then 2 else 1) := by
  obtain ⟨g', hg', hp, hwin, ht, hv, heq⟩ := api_submit_move_ok_inv h
  have hgg : g' = g := by
    rw [hg] at hg'
    exact (Option.some_injective _ hg').symm
  subst hgg
  rw [heq] at h ⊢
  have hm : (submit_effects st gid pid x y (playerSymbol g' pid) (playerSymbol g' pid)
      now (deserialize_board g'.board)).2 = m := by
    simpa using h
  have hc := submit_effects_counts st gid pid x y (playerSymbol g' pid)
    (playerSymbol g' pid) now (deserialize_board g'.board)
  exact ⟨hc.1, by rw [← hm]; exact hc.2.1, hc.2.2⟩

/-- Witness for C3: the opening move in the fresh game `st1` inserts one
move row and updates the game row once. -/
theorem submit_move_success_effects_w :
    (api_submit_move st1 1 1 0 0 5).2.moveInserts = st1.moveInserts + 1 ∧
    (api_submit_move st1 1 1 0 0 5).2.moves = st1.moves ++ [mv1] ∧
    (api_submit_move st1 1 1 0 0 5).2.gameUpdates = st1.gameUpdates + 1 := by
  have h := submit_move_success_effects st1 1 1 0 0 5 g1 mv1 rfl rfl
  exact ⟨h.1, h.2.1, h.2.2⟩

/-- Counterexample to C3 as stated: X's winning move in `stWin`
(completing the top row) performs two game-row updates, not one, while
inserting a single move row. -/
theorem submit_move_two_updates_cx :
    (api_submit_move stWin 1 1 0 2 9).1 = Except.ok ⟨0, 1, 1, 0, 2, Cell.X, 9⟩ ∧
    (api_submit_move stWin 1 1 0 2 9).2.gameUpdates = 2 ∧
    stWin.gameUpdates = 0 ∧
    (api_submit_move stWin 1 1 0 2 9).2.moveInserts = 1 := by
  refine ⟨rfl, rfl, rfl, rfl⟩

/-- C8: an accepted move follows the advance transition on the game
row: a winning new board concludes the game as won with the turn
cleared and `finished_at` stamped; a drawing board concludes it as a
draw likewise; otherwise the turn toggles (`toggle X = O`,
`toggle O = X`) and the game stays unconcluded. -/
theorem submit_move_advance (st : Store) (gid pid : Nat) (x y : Int) (now : Nat)
    (g gAfter : Game) (m : MoveRec)
    (hg : st.games gid = some g)
    (h : (api_submit_move st gid pid x y now).1 = Except.ok m)
    (hg' : (api_submit_move st gid pid x y now).2.games gid = some gAfter) :
    (next_turn Cell.X = Cell.O ∧ next_turn Cell.O = Cell.X) ∧
    (∀ w, check_win (make_move (deserialize_board g.board) x y (playerSymbol g pid)) = some w →
      gAfter.winner = some (winnerOfCell w) ∧ gAfter.next_turn = none ∧
      gAfter.finished_at = some now) ∧
    (check_win (make_move (deserialize_board g.board) x y (playerSymbol g pid)) = none →
      check_draw (make_move (deserialize_board g.board) x y (playerSymbol g pid)) = true →
      gAfter.winner = some GWin.Draw ∧ gAfter.next_turn = none ∧
      gAfter.finished_at = some now) ∧
    (check_win (make_move (deserialize_board g.board) x y (playerSymbol g pid)) = none →
      check_draw (make_move (deserialize_board g.board) x y (playerSymbol g pid)) = false →
      gAfter.winner = none ∧
      gAfter.next_turn = some (next_turn (playerSymbol g pid)) ∧
      gAfter.finished_at = g.finished_at) := by
  obtain ⟨g', hg2, hp, hwin, ht, hv, heq⟩ := api_submit_move_ok_inv h
  have hgg : g' = g := by
    rw [hg] at hg2
    exact (Option.some_injective _ hg2).symm
  subst hgg
  rw [heq] at hg'
  refine ⟨⟨rfl, rfl⟩, ?_, ?_, ?_⟩
  · intro w hw
    rw [submit_effects_games_win st gid pid x y _ _ now _ g' w hg hw] at hg'
    have := Option.some_injective _ hg'
    rw [← this]
    exact ⟨rfl, rfl, rfl⟩
  · intro hw hd
    rw [submit_effects_games_draw st gid pid x y _ _ now _ g' hg hw hd] at hg'
    have := Option.some_injective _ hg'
    rw [← this]
    exact ⟨rfl, rfl, rfl⟩
  · intro hw hd
    rw [submit_effects_games_cont st gid pid x y _ _ now _ g' hg hw hd] at hg'
    have := Option.some_injective _ hg'
    rw [← this]
    exact ⟨rfl, rfl, rfl⟩

/-- Witness for C8: X's opening move in `st1` toggles the turn to O and
leaves the game unconcluded. -/
theorem submit_move_advance_w :
    gAfter1.winner = none ∧
    gAfter1.next_turn = some (next_turn (playerSymbol g1 1)) ∧
    gAfter1.finished_at = g1.finished_at :=
  (submit_move_advance st1 1 1 0 0 5 g1 gAfter1 mv1 rfl rfl rfl).2.2.2 rfl rfl

/-- C5 (amended): a game created by `database.create_game` starts with
`next_turn = X` and no winner, and its nine stored cells — returned
verbatim by `_deserialize_board` — are all the legacy empty-string
sentinel, which every core predicate treats as Empty (any in-range move
on the fresh board is valid). -/
theorem create_game_initial_state (st : Store) (gid pxid : Nat)
    (poid : Option Nat) (now : Nat) :
    (∀ i j : Fin 3, deserialize_board (create_game st gid pxid poid now).2.board i j
      = Cell.emptyStr) ∧
    (∀ i j : Fin 3, isEmptyCell (deserialize_board (create_game st gid pxid poid now).2.board i j)
      = true) ∧
    (∀ x y : Int, 0 ≤ x → x < 3 → 0 ≤ y → y < 3 →
      is_valid_move (deserialize_board (create_game st gid pxid poid now).2.board) x y
        = true) ∧
    (create_game st gid pxid poid now).2.next_turn = some Cell.X ∧
    (create_game st gid pxid poid now).2.winner = none ∧
    (create_game st gid pxid poid now).1.games gid =
      some (create_game st gid pxid poid now).2 := by
  refine ⟨fun i j => rfl, fun i j => rfl, ?_, rfl, rfl, by simp [create_game]⟩
  intro x y hx1 hx2 hy1 hy2
  unfold is_valid_move
  rw [dif_pos ⟨hx1, hx2, hy1, hy2⟩]
  rfl

/-- Witness for C5: player 1's fresh game against an open seat. -/
theorem create_game_initial_state_w :
    (create_game emptyStore 1 1 none 0).2.next_turn = some Cell.X ∧
    is_valid_move (deserialize_board (create_game emptyStore 1 1 none 0).2.board) 0 0
      = true := by
  have h := create_game_initial_state emptyStore 1 1 none 0
  exact ⟨h.2.2.2.1, h.2.2.1 0 0 (by omega) (by omega) (by omega) (by omega)⟩

/-- Counterexample to C5 as stated: the cells of a newly created game,
as loaded through `_deserialize_board`, are the legacy empty string —
not the `null` sentinel — and no normalization rewrites them on load. -/
theorem create_game_cell_not_null_cx :
    deserialize_board (create_game emptyStore 1 1 none 0).2.board 0 0 = Cell.emptyStr ∧
    Cell.emptyStr ≠ Cell.empty := by
  exact ⟨rfl, by decide⟩

end TicTacToe
